import Mathlib

/-!
Verification of the RAG pipeline of this repository: chunker, embedding
client, vector store and retriever, chat event stream.  Strings are
modelled as lists of characters (`Str`); the external embedding provider
and the pgvector distance operator are modelled as function parameters
(the repository only consumes their results), and database transactions
as explicit list-of-rows state passing.
-/

/-- Characters the source's `.trim()` / `\s` treat as whitespace (ASCII range;
the repository's inputs are ASCII markdown). -/
def wsChar (c : Char) : Bool :=
  c == ' ' || c == '\t' || c == '\n' || c == '\r' || c == '\x0b' || c == '\x0c'

/-- Strings of the TypeScript source, modelled as character lists. -/
abbrev Str := List Char

/-- Convert a Lean string literal to the character-list model. -/
def lit (s : String) : Str := s.data

/-- JavaScript `String.prototype.trim()`. -/
def trimStr (s : Str) : Str :=
  ((s.dropWhile wsChar).reverse.dropWhile wsChar).reverse

/-- JavaScript `s.split(sep)` for a one-character separator
(`"".split(c) = [""]`, separators at the ends yield empty pieces). -/
def splitOnChar (sep : Char) : Str → List Str
  | [] => [[]]
  | c :: rest =>
    let r := splitOnChar sep rest
    if c = sep then [] :: r
    else
      match r with
      | [] => [[c]]
      | h :: t => (c :: h) :: t

/-- JavaScript `s.slice(-n)`: the last `n` characters (the whole string when
it is shorter than `n`). -/
def lastN (n : Nat) (s : Str) : Str := s.drop (s.length - n)

/-- The `RAG_CONFIG` constant object of `lib/constants.ts`. -/
structure RagConfig where
  DEFAULT_TOP_K : Nat
  MAX_DISTANCE_THRESHOLD : ℚ
  CHUNK_SIZE : Nat
  CHUNK_OVERLAP : Nat
  MIN_CHUNK_SIZE : Nat

/-- Values from `lib/constants.ts`.  The distance threshold `1.2` is written
as the reduced fraction `6/5` in constructor form so that the kernel can
evaluate comparisons against it (`ratThreshold_eq` below checks it equals
`6 / 5`). -/
def RAG_CONFIG : RagConfig :=
  { DEFAULT_TOP_K := 5
    MAX_DISTANCE_THRESHOLD := ⟨6, 5, by norm_num, by norm_num⟩
    CHUNK_SIZE := 1000
    CHUNK_OVERLAP := 200
    MIN_CHUNK_SIZE := 200 }

/-! ## Vector store read path (`lib/db/vector-store.ts` `queryVectors`)

A stored row of the `document_chunks` relation.  The embedding column is not
modelled as data: the pgvector cosine-distance operator `<=>` lives in the
database engine, outside this repository, so the distance of each row to the
query embedding enters the model as a function `dist : StoredRow → ℚ`. -/
structure StoredRow where
  id : Str
  content : Str
  county : Str
  documentTitle : Str
  year : Int
  sectionHeader : Option Str
  subsectionHeader : Option Str
  chunkIndex : Nat
  totalChunks : Nat
deriving DecidableEq

instance decRelDistLe (dist : StoredRow → ℚ) :
    DecidableRel (fun a b => dist a ≤ dist b) :=
  fun a b => inferInstanceAs (Decidable (dist a ≤ dist b))

instance isTotalDistLe (dist : StoredRow → ℚ) :
    IsTotal StoredRow (fun a b => dist a ≤ dist b) :=
  ⟨fun a b => le_total (dist a) (dist b)⟩

instance isTransDistLe (dist : StoredRow → ℚ) :
    IsTrans StoredRow (fun a b => dist a ≤ dist b) :=
  ⟨fun _ _ _ hab hbc => le_trans hab hbc⟩

/-- The SQL `SELECT ... [WHERE county = $2] ORDER BY embedding <=> $1::vector
LIMIT k` both read paths issue: optional exact county filter, then rows in
ascending distance order, then at most `k` rows. -/
def sqlNearest (dist : StoredRow → ℚ) (db : List StoredRow)
    (county : Option Str) (limit : Nat) : List StoredRow :=
  let rows : List StoredRow := match county with
    | some c => db.filter (fun r => r.county = c)
    | none => db
  (rows.insertionSort (fun a b => dist a ≤ dist b)).take limit

/-- `QueryOptions` of `vector-store.ts` (absent fields become the
`RAG_CONFIG` defaults inside `queryVectors`). -/
structure QueryOptions where
  topK : Option Nat := none
  maxDistance : Option ℚ := none
  county : Option Str := none

/-- Result row shape of `queryVectors`. -/
structure VectorSearchMetadata where
  county : Str
  documentTitle : Str
  year : Int
  sectionHeader : Option Str
  subsectionHeader : Option Str
  chunkIndex : Nat
  totalChunks : Nat
deriving DecidableEq

/-- `VectorSearchResult` of `vector-store.ts`. -/
structure VectorSearchResult where
  id : Str
  content : Str
  distance : ℚ
  metadata : VectorSearchMetadata
deriving DecidableEq

/-- The row-to-result mapping at the end of `queryVectors`. -/
def toSearchResult (dist : StoredRow → ℚ) (r : StoredRow) : VectorSearchResult :=
  { id := r.id
    content := r.content
    distance := dist r
    metadata :=
      { county := r.county
        documentTitle := r.documentTitle
        year := r.year
        sectionHeader := r.sectionHeader
        subsectionHeader := r.subsectionHeader
        chunkIndex := r.chunkIndex
        totalChunks := r.totalChunks } }

/-- `queryVectors` of `lib/db/vector-store.ts`: empty query text returns `[]`;
otherwise the nearest-`topK` SQL query runs and the store itself then drops
rows with `row.distance > maxDistance` (default `1.2`) before mapping to
results. -/
def queryVectors (dist : StoredRow → ℚ) (db : List StoredRow)
    (queryText : Str) (options : QueryOptions) : List VectorSearchResult :=
  if (trimStr queryText).length = 0 then []
  else
    let topK := options.topK.getD RAG_CONFIG.DEFAULT_TOP_K
    let maxDistance := options.maxDistance.getD RAG_CONFIG.MAX_DISTANCE_THRESHOLD
    let rows := sqlNearest dist db options.county topK
    (rows.filter (fun r => dist r ≤ maxDistance)).map (toSearchResult dist)

/-- Modelled from the spec (section 4.3): the vector-store `query` as the
specification words it — up to `topK` rows ordered by ascending cosine
distance, optional exact county restriction, and **no** distance-threshold
filtering of its own.  Kept for comparison with `queryVectors`, which is the
translation of the source. -/
def queryVectorsAsSpecified (dist : StoredRow → ℚ) (db : List StoredRow)
    (queryText : Str) (options : QueryOptions) : List VectorSearchResult :=
  if (trimStr queryText).length = 0 then []
  else
    let topK := options.topK.getD RAG_CONFIG.DEFAULT_TOP_K
    let rows := sqlNearest dist db options.county topK
    rows.map (toSearchResult dist)

/-! ## Retriever (`lib/retrieval.ts` `retrieveRelevantChunks`) -/

/-- `RetrievalOptions` of `lib/retrieval.ts`.  The field the source calls
`minDistance` acts as the maximum admissible distance; its default is
`RAG_CONFIG.MAX_DISTANCE_THRESHOLD`. -/
structure RetrievalOptions where
  topK : Option Nat := none
  county : Option Str := none
  minDistance : Option ℚ := none

/-- `RetrievedChunk` of `lib/retrieval.ts`. -/
structure RetrievedChunk where
  id : Str
  content : Str
  county : Str
  documentTitle : Str
  sectionHeader : Option Str
  subsectionHeader : Option Str
  distance : ℚ
deriving DecidableEq

/-- The row-to-chunk mapping inside `retrieveRelevantChunks`. -/
def toRetrievedChunk (dist : StoredRow → ℚ) (r : StoredRow) : RetrievedChunk :=
  { id := r.id
    content := r.content
    county := r.county
    documentTitle := r.documentTitle
    sectionHeader := r.sectionHeader
    subsectionHeader := r.subsectionHeader
    distance := dist r }

/-- `retrieveRelevantChunks` of `lib/retrieval.ts`: throws on blank query,
otherwise runs the nearest-`topK` SQL query and drops rows above the distance
threshold.  The source returns `[]` separately for "no rows" and "all rows
filtered out"; both equal the filtered list, so one return expresses all
three exits.  The model assumes the embedding call and the database
round-trip succeed (their failures are provider/storage errors rethrown by
the surrounding catch). -/
def retrieveRelevantChunks (dist : StoredRow → ℚ) (db : List StoredRow)
    (query : Str) (options : RetrievalOptions) :
    Except Str (List RetrievedChunk) :=
  let topK := options.topK.getD RAG_CONFIG.DEFAULT_TOP_K
  let minDistance := options.minDistance.getD RAG_CONFIG.MAX_DISTANCE_THRESHOLD
  if (trimStr query).length = 0 then .error (lit "Query cannot be empty")
  else
    let rows := sqlNearest dist db options.county topK
    .ok ((rows.filter (fun r => dist r ≤ minDistance)).map (toRetrievedChunk dist))

/-! ## Chunker (`lib/md-processor.ts`) -/

/-- `DocumentMetadata` supplied by the upload route. -/
structure DocumentMetadata where
  county : Str
  title : Str
  year : Int
deriving DecidableEq

/-- `MarkdownSection` of `lib/types.ts`, as produced by
`parseMarkdownStructure`. -/
structure MarkdownSection where
  level : Nat
  title : Str
  content : Str
  startPosition : Nat
  endPosition : Nat
deriving DecidableEq

/-- The metadata object attached to every chunk (the `...metadata` spread
plus the chunk-specific fields). -/
structure ChunkMetadata where
  county : Str
  title : Str
  year : Int
  documentTitle : Str
  chunkIndex : Nat
  totalChunks : Nat
  sectionHeader : Option Str
  subsectionHeader : Option Str
deriving DecidableEq

/-- `DocumentChunk` of `lib/types.ts`.  `id` comes from `randomUUID()`, an
external random source; the model leaves it empty (no claim reads it). -/
structure DocumentChunk where
  id : Str
  documentId : Str
  content : Str
  metadata : ChunkMetadata
deriving DecidableEq

/-- A header found by the first pass of `parseMarkdownStructure`. -/
structure HeaderPos where
  level : Nat
  title : Str
  position : Nat
  lineIndex : Nat
deriving DecidableEq

/-- Match of `/^#{n}\s+(.+)$/` against one line (no newline inside): the line
must start with exactly the given hashes followed by at least one whitespace
character and at least one further character; the captured title is the
remainder trimmed. -/
def headingTitle (hashes : Nat) (line : Str) : Option Str :=
  if line.take hashes = List.replicate hashes '#' then
    match line.drop hashes with
    | c1 :: _ :: _ => if wsChar c1 then some (trimStr (line.drop hashes)) else none
    | _ => none
  else none

/-- The h3/h2/h1 match order of `parseMarkdownStructure`'s first pass. -/
def matchHeader (line : Str) : Option (Nat × Str) :=
  match headingTitle 3 line with
  | some t => some (3, t)
  | none =>
    match headingTitle 2 line with
    | some t => some (2, t)
    | none =>
      match headingTitle 1 line with
      | some t => some (1, t)
      | none => none

/-- First pass of `parseMarkdownStructure`: every heading line with its level,
trimmed title, running character position and line index
(`currentPosition += line.length + 1`). -/
def collectHeaders : List Str → Nat → Nat → List HeaderPos
  | [], _, _ => []
  | l :: rest, idx, pos =>
    (match matchHeader l with
     | some (lv, t) => [{ level := lv, title := t, position := pos, lineIndex := idx }]
     | none => []) ++ collectHeaders rest (idx + 1) (pos + l.length + 1)

/-- Second pass of `parseMarkdownStructure`: a section's content is the lines
between its heading and the next heading (or the end), joined and trimmed;
sections whose trimmed content is empty are dropped. -/
def sectionsFromHeaders (lines : List Str) (contentLen : Nat) :
    List HeaderPos → List MarkdownSection
  | [] => []
  | h :: rest =>
    let startLine := h.lineIndex + 1
    let endLine := match rest with
      | h2 :: _ => h2.lineIndex
      | [] => lines.length
    let secContent := trimStr (List.intercalate [('\n' : Char)]
      ((lines.drop startLine).take (endLine - startLine)))
    let endPos := match rest with
      | h2 :: _ => h2.position
      | [] => contentLen
    (if secContent.length > 0 then
      [{ level := h.level, title := h.title, content := secContent,
         startPosition := h.position, endPosition := endPos }]
     else []) ++ sectionsFromHeaders lines contentLen rest

/-- `parseMarkdownStructure` of `lib/md-processor.ts`. -/
def parseMarkdownStructure (content : Str) : List MarkdownSection :=
  let lines := splitOnChar '\n' content
  sectionsFromHeaders lines content.length (collectHeaders lines 0 0)

/-- Sentence terminators of the regex `[^.!?]+[.!?]+|\n+|[^.!?\n]+$`. -/
def isSentTerm (c : Char) : Bool := c == '.' || c == '!' || c == '?'

/-- Character class `[^.!?\n]` of the third regex alternative. -/
def sentPlainChar (c : Char) : Bool := !isSentTerm c && c != '\n'

/-- All matches of `/[^.!?]+[.!?]+|\n+|[^.!?\n]+$/g`, by the JavaScript
engine's scan: at each position try the alternatives in order; on failure
advance one character (that character belongs to no match).  Each step
consumes at least one character, so `fuel = s.length` makes the fallback for
exhausted fuel unreachable. -/
def sentenceMatches : Nat → Str → List Str
  | 0, _ => []
  | _, [] => []
  | fuel + 1, c :: cs =>
    let s := c :: cs
    if !isSentTerm c && s.any isSentTerm then
      -- alternative 1: a nonempty run without terminators, then the
      -- terminator run (the non-terminator run may span newlines)
      let pre := s.takeWhile (fun x => !isSentTerm x)
      let afterPre := s.dropWhile (fun x => !isSentTerm x)
      (pre ++ afterPre.takeWhile isSentTerm) ::
        sentenceMatches fuel (afterPre.dropWhile isSentTerm)
    else if c == '\n' then
      -- alternative 2: a newline run
      (s.takeWhile (fun x => x == '\n')) ::
        sentenceMatches fuel (s.dropWhile (fun x => x == '\n'))
    else if !isSentTerm c && s.all sentPlainChar then
      -- alternative 3: plain characters reaching the end of the string
      [s]
    else
      sentenceMatches fuel cs

/-- `splitOnSentences` of `lib/md-processor.ts`: accumulate regex matches into
chunks of at most `maxSize` characters (a single over-long sentence still
becomes its own chunk); `match` returning no matches falls back to `[text]`;
the final accumulator is kept only when nonempty after trimming. -/
def splitOnSentences (text : Str) (maxSize : Nat) : List Str :=
  let ms := sentenceMatches text.length text
  let sentences := if ms = [] then [text] else ms
  let step := fun (acc : List Str × Str) (sentence : Str) =>
    if acc.2.length + sentence.length > maxSize ∧ acc.2.length > 0 then
      (acc.1 ++ [trimStr acc.2], sentence)
    else
      (acc.1, acc.2 ++ sentence)
  let r := sentences.foldl step ([], [])
  if (trimStr r.2).length > 0 then r.1 ++ [trimStr r.2] else r.1

/-- JavaScript `text.split(/\n\n+/)`: split on maximal runs of two or more
newlines.  Fuel (`= s.length`) again makes the exhausted-fuel arm
unreachable. -/
def splitParaGo : Nat → Str → Str → List Str
  | 0, cur, _ => [cur.reverse]
  | _, cur, [] => [cur.reverse]
  | fuel + 1, cur, c :: cs =>
    if c = '\n' ∧ cs.head? = some '\n' then
      cur.reverse :: splitParaGo fuel [] (cs.dropWhile (fun x => x == '\n'))
    else
      splitParaGo fuel (c :: cur) cs

/-- The paragraph list of `splitOnParagraphs`. -/
def splitParagraphs (s : Str) : List Str := splitParaGo s.length [] s

/-- Append a suffix to the last element of a list (JavaScript
`chunks[chunks.length - 1] += ...`). -/
def appendToLast (suffix : Str) : List Str → List Str
  | [] => []
  | [x] => [x ++ suffix]
  | x :: xs => x :: appendToLast suffix xs

/-- Length of the last element (`0` for an empty list; the source guards with
`chunks.length > 0` before reading it). -/
def lastLength (l : List Str) : Nat :=
  match l.getLast? with
  | some x => x.length
  | none => 0

/-- `splitOnParagraphs` of `lib/md-processor.ts`: skip blank paragraphs,
sentence-split over-long ones, merge a paragraph into the previous chunk when
the sum stays under `maxSize` (re-inserting the `"\n\n"` separator), else
start a new chunk. -/
def splitOnParagraphs (text : Str) (maxSize : Nat) : List Str :=
  (splitParagraphs text).foldl
    (fun chunks paragraph =>
      if (trimStr paragraph).length = 0 then chunks
      else if paragraph.length > maxSize then
        chunks ++ splitOnSentences paragraph maxSize
      else if chunks.length > 0 ∧ lastLength chunks + paragraph.length < maxSize then
        appendToLast (lit "\n\n" ++ paragraph) chunks
      else chunks ++ [paragraph])
    []

/-- The context-label template (source lines 207-210 and 246-249, identical
in both branches): the level-3 form names `currentH2` and the section title;
every other level names only the section's own title. -/
def contextLabel (currentH2 : Str) (level : Nat) (title : Str) : Str :=
  if level = 3 then
    lit "[Context: " ++ currentH2 ++ lit " > " ++ title ++ lit "]\n\n"
  else
    lit "[Context: " ++ title ++ lit "]\n\n"

/-- A chunk together with a proof-instrumentation flag recording whether the
context-label branch fired when the chunk was built.  Erasing the flag
(`EmittedChunk.chunk`) recovers exactly the source's chunk. -/
structure EmittedChunk where
  chunk : DocumentChunk
  labeled : Bool
deriving DecidableEq

/-- Build one chunk of the hierarchical path with its metadata
(`sectionHeader`/`subsectionHeader` per the section's level). -/
def mkSectionChunk (meta : DocumentMetadata) (documentId : Str)
    (content : Str) (idx : Nat) (level : Nat) (title : Str)
    (currentH2 : Option Str) : DocumentChunk :=
  { id := []
    documentId := documentId
    content := content
    metadata :=
      { county := meta.county
        title := meta.title
        year := meta.year
        documentTitle := meta.title
        chunkIndex := idx
        totalChunks := 0
        sectionHeader := if level = 2 then some title else currentH2
        subsectionHeader := if level = 3 then some title else none } }

/-- The mutable state of `chunkMarkdownDocument`'s section loop. -/
structure BuildState where
  chunks : List EmittedChunk
  currentH2 : Option Str
  isFirstOfSection : Bool
  prevEnd : Str

/-- The inner `textChunks.forEach` of the over-long-section branch (source
lines 243-285): the context label goes only on index `0` when the section is
still fresh and an H2 is known; overlap is prepended unless this is the very
first chunk of the document; chunks shorter than `MIN_CHUNK_SIZE` after
overlap are skipped unless the split produced exactly one piece
(`tcLen = textChunks.length`); `previousChunkEnd` advances only on kept
chunks and is taken from the (possibly labeled) pre-overlap content. -/
def splitLoop (meta : DocumentMetadata) (documentId : Str) (level : Nat)
    (title : Str) (currentH2 : Option Str) (firstOfSection : Bool)
    (tcLen : Nat) : List Str → Nat → Nat → Str → List EmittedChunk × Str
  | [], _, _, prevEnd => ([], prevEnd)
  | tc :: rest, i, total, prevEnd =>
    let lab : Bool := i == 0 && firstOfSection && currentH2.isSome
    let chunkContent :=
      if lab then contextLabel (currentH2.getD []) level title ++ tc else tc
    let contentWithOverlap :=
      if total > 0 ∨ i > 0 then prevEnd ++ chunkContent else chunkContent
    if contentWithOverlap.length ≥ RAG_CONFIG.MIN_CHUNK_SIZE ∨ tcLen = 1 then
      let e : EmittedChunk :=
        { chunk := mkSectionChunk meta documentId contentWithOverlap total
            level title currentH2
          labeled := lab }
      let r := splitLoop meta documentId level title currentH2 firstOfSection
        tcLen rest (i + 1) (total + 1) (lastN RAG_CONFIG.CHUNK_OVERLAP chunkContent)
      (e :: r.1, r.2)
    else
      splitLoop meta documentId level title currentH2 firstOfSection
        tcLen rest (i + 1) total prevEnd

/-- One iteration of `sections.forEach` (source lines 193-296).  A level-2
section first updates `currentH2` and re-arms `isFirstChunkOfSection`; a
section fitting in `CHUNK_SIZE` becomes one chunk (labeled when the section
is fresh and an H2 is known), a larger one is paragraph-split and run through
`splitLoop`.  `isFirstChunkOfSection` drops to `false` after the single chunk,
or at index `0` of the split (so only when the split is nonempty). -/
def sectionStep (meta : DocumentMetadata) (documentId : Str)
    (st : BuildState) (sec : MarkdownSection) : BuildState :=
  let currentH2 := if sec.level = 2 then some sec.title else st.currentH2
  let firstOfSection := if sec.level = 2 then true else st.isFirstOfSection
  if sec.content.length ≤ RAG_CONFIG.CHUNK_SIZE then
    let lab : Bool := firstOfSection && currentH2.isSome
    let chunkContent :=
      if lab then contextLabel (currentH2.getD []) sec.level sec.title ++ sec.content
      else sec.content
    let contentWithOverlap :=
      if st.chunks.length > 0 then st.prevEnd ++ chunkContent else chunkContent
    { chunks := st.chunks ++
        [{ chunk := mkSectionChunk meta documentId contentWithOverlap
             st.chunks.length sec.level sec.title currentH2
           labeled := lab }]
      currentH2 := currentH2
      isFirstOfSection := false
      prevEnd := lastN RAG_CONFIG.CHUNK_OVERLAP sec.content }
  else
    let tcs := splitOnParagraphs sec.content RAG_CONFIG.CHUNK_SIZE
    let r := splitLoop meta documentId sec.level sec.title currentH2
      firstOfSection tcs.length tcs 0 st.chunks.length st.prevEnd
    { chunks := st.chunks ++ r.1
      currentH2 := currentH2
      isFirstOfSection := if tcs.isEmpty then firstOfSection else false
      prevEnd := r.2 }

/-- The no-headings path (source lines 161-186): paragraph-split the whole
document; every chunk after the first gets the overlap of the previous raw
chunk; `chunkIndex`/`totalChunks` are set inline (this branch returns before
the backfill pass).  No chunk here is ever labeled or dropped. -/
def noSectionsLoop (meta : DocumentMetadata) (documentId : Str)
    (total : Nat) : List Str → Nat → Str → List EmittedChunk
  | [], _, _ => []
  | tc :: rest, i, prevEnd =>
    let contentWithOverlap := if i > 0 then prevEnd ++ tc else tc
    { chunk :=
        { id := []
          documentId := documentId
          content := contentWithOverlap
          metadata :=
            { county := meta.county
              title := meta.title
              year := meta.year
              documentTitle := meta.title
              chunkIndex := i
              totalChunks := total
              sectionHeader := none
              subsectionHeader := none } }
      labeled := false } ::
      noSectionsLoop meta documentId total rest (i + 1)
        (lastN RAG_CONFIG.CHUNK_OVERLAP tc)

/-- The final two-pass backfill (source lines 299-302): `chunkIndex` becomes
the position in the final list and `totalChunks` its length. -/
def backfillGo (total : Nat) : Nat → List EmittedChunk → List EmittedChunk
  | _, [] => []
  | i, e :: rest =>
    { e with chunk :=
        { e.chunk with metadata :=
            { e.chunk.metadata with chunkIndex := i, totalChunks := total } } } ::
      backfillGo total (i + 1) rest

/-- Apply the backfill to a finished chunk list. -/
def backfill (l : List EmittedChunk) : List EmittedChunk :=
  backfillGo l.length 0 l

/-- `chunkMarkdownDocument` of `lib/md-processor.ts`, instrumented with the
`labeled` flags. -/
def chunkMarkdownAnnotated (content : Str) (meta : DocumentMetadata)
    (documentId : Str) : List EmittedChunk :=
  let sections := parseMarkdownStructure content
  if sections.isEmpty then
    let textChunks := splitOnParagraphs content RAG_CONFIG.CHUNK_SIZE
    noSectionsLoop meta documentId textChunks.length textChunks 0 []
  else
    backfill ((sections.foldl (sectionStep meta documentId)
      { chunks := [], currentH2 := none, isFirstOfSection := true,
        prevEnd := [] }).chunks)

/-- `chunkMarkdownDocument` of `lib/md-processor.ts` (instrumentation
erased). -/
def chunkMarkdownDocument (content : Str) (meta : DocumentMetadata)
    (documentId : Str) : List DocumentChunk :=
  (chunkMarkdownAnnotated content meta documentId).map (fun e => e.chunk)

/-- `processMarkdownDocument` of `lib/md-processor.ts`: rejects documents
that are empty after trimming, otherwise chunks them. -/
def processMarkdownDocument (content : Str) (meta : DocumentMetadata)
    (documentId : Str) : Except Str (List DocumentChunk) :=
  if (trimStr content).length = 0 then .error (lit "Document content is empty")
  else .ok (chunkMarkdownDocument content meta documentId)

/-- Total content length of a chunk list. -/
def sumContentLen (l : List DocumentChunk) : Nat :=
  (l.map (fun c => c.content.length)).sum

/-- Substring test used to state properties about the context label
(`needle` occurs contiguously in `hay`). -/
def startsWithStr : Str → Str → Bool
  | [], _ => true
  | _ :: _, [] => false
  | a :: as, b :: bs => a == b && startsWithStr as bs

/-- Whether `needle` occurs as a contiguous substring of `hay`. -/
def hasSub (needle hay : Str) : Bool :=
  (List.range (hay.length + 1)).any (fun i => startsWithStr needle (hay.drop i))

/-! ## Embedding client (`lib/embeddings.ts`)

The provider is external; each network attempt's outcome enters the model as
an oracle indexed by the attempt number. -/

/-- Outcome of one `openai.embeddings.create` attempt: a vector, an HTTP 429,
an HTTP 401, or another (transient) error. -/
inductive AttemptOutcome where
  | success : List ℚ → AttemptOutcome
  | rateLimit : AttemptOutcome
  | authError : AttemptOutcome
  | transient : Str → AttemptOutcome

/-- Result of `generateEmbedding`: the value or error, total milliseconds
spent in `sleep`, and the number of attempts made. -/
structure EmbedRun where
  result : Except Str (List ℚ)
  sleptMs : Nat
  attempts : Nat
deriving Repr

/-- The retry loop of `generateEmbedding` (source lines 34-83): `attempt`
runs 1..3; a 429 sleeps `2^attempt * 1000` ms and retries (also sleeping
after the last attempt, as the source does, before the final throw); a 401
throws immediately; any other error sleeps and retries only while
`attempt < 3`.  `remaining` counts loop iterations left (`3` at entry). -/
def genEmbedGo (oracle : Nat → AttemptOutcome) :
    Nat → Nat → Nat → EmbedRun
  | 0, attempt, slept =>
    { result := .error (lit "Failed to generate embedding after 3 attempts")
      sleptMs := slept
      attempts := attempt - 1 }
  | remaining + 1, attempt, slept =>
    match oracle attempt with
    | .success v => { result := .ok v, sleptMs := slept, attempts := attempt }
    | .rateLimit =>
      genEmbedGo oracle remaining (attempt + 1) (slept + 2 ^ attempt * 1000)
    | .authError =>
      { result := .error (lit "Invalid OpenAI API key")
        sleptMs := slept
        attempts := attempt }
    | .transient _ =>
      if attempt < 3 then
        genEmbedGo oracle remaining (attempt + 1) (slept + 2 ^ attempt * 1000)
      else
        { result := .error (lit "Failed to generate embedding after 3 attempts")
          sleptMs := slept
          attempts := attempt }

/-- `generateEmbedding` of `lib/embeddings.ts`: blank text throws before any
attempt; otherwise the three-attempt retry loop runs. -/
def generateEmbedding (oracle : Nat → AttemptOutcome) (text : Str) : EmbedRun :=
  if text.isEmpty ∨ (trimStr text).length = 0 then
    { result := .error (lit "Cannot generate embedding for empty text")
      sleptMs := 0
      attempts := 0 }
  else genEmbedGo oracle 3 1 0

/-- The validity test of `generateEmbeddings`' filter
(`text && text.trim().length > 0`). -/
def validText (t : Str) : Bool := !t.isEmpty && (trimStr t).length > 0

/-- The `i += batchSize` batching of `generateEmbeddings` (batches of 100).
Each step consumes at least one element, so `fuel = l.length` makes the
exhausted-fuel arm unreachable. -/
def toBatchesGo : Nat → List Str → List (List Str)
  | _, [] => []
  | 0, l => [l]
  | fuel + 1, l => l.take 100 :: toBatchesGo fuel (l.drop 100)

/-- `generateEmbeddings` of `lib/embeddings.ts` on the provider's success
path (`embedFn` is the provider's per-text embedding; per-batch retries
mirror `generateEmbedding` and a failed batch aborts the whole call —
failure of the provider is not needed by any claim on this function): empty
input yields `[]` directly; blank texts are filtered out before batching; a
nonempty input with no valid text throws; otherwise each batch is embedded
in order and the batch results concatenated. -/
def generateEmbeddings (embedFn : Str → List ℚ) (texts : List Str) :
    Except Str (List (List ℚ)) :=
  if texts.isEmpty then .ok []
  else
    let validTexts := texts.filter validText
    if validTexts.isEmpty then
      .error (lit "No valid text found to generate embeddings")
    else
      .ok (((toBatchesGo validTexts.length validTexts).map
        (fun b => b.map embedFn)).flatten)

/-! ## Vector store write path (`lib/db/vector-store.ts`
`storeDocumentChunks`) -/

/-- One row of the `INSERT INTO document_chunks` statement (the embedding is
kept as the vector the pgvector literal encodes). -/
structure InsertedRow where
  id : Str
  documentId : Str
  content : Str
  embedding : List ℚ
  county : Str
  documentTitle : Str
  year : Int
  chunkIndex : Nat
  totalChunks : Nat
  sectionHeader : Option Str
  subsectionHeader : Option Str
deriving DecidableEq

/-- `StoreResult` of `vector-store.ts`. -/
structure StoreResult where
  success : Bool
  vectorCount : Nat
  error : Option Str
deriving DecidableEq

/-- The row an insert statement writes for one chunk and its embedding. -/
def rowOfChunk (c : DocumentChunk) (v : List ℚ) : InsertedRow :=
  { id := c.id
    documentId := c.documentId
    content := c.content
    embedding := v
    county := c.metadata.county
    documentTitle := c.metadata.documentTitle
    year := c.metadata.year
    chunkIndex := c.metadata.chunkIndex
    totalChunks := c.metadata.totalChunks
    sectionHeader := c.metadata.sectionHeader
    subsectionHeader := c.metadata.subsectionHeader }

/-- The insert loop inside the transaction (source lines 97-124): inserts are
buffered; the first failing insert (per the `insertFail` oracle, indexed by
loop position) aborts with its error. -/
def insertLoop (insertFail : Nat → Option Str) :
    List (DocumentChunk × List ℚ) → Nat → Except Str (List InsertedRow)
  | [], _ => .ok []
  | (c, v) :: rest, i =>
    match insertFail i with
    | some e => .error e
    | none =>
      match insertLoop insertFail rest (i + 1) with
      | .error e => .error e
      | .ok rows => .ok (rowOfChunk c v :: rows)

/-- `storeDocumentChunks` of `lib/db/vector-store.ts`.  `db` is the committed
relation; `BEGIN` opens a buffer, `COMMIT` appends it to `db`, and the catch
block's `ROLLBACK` discards it, so every failure (embedding error, count
mismatch, failed insert) leaves `db` unchanged. -/
def storeDocumentChunks (embedFn : Str → List ℚ)
    (insertFail : Nat → Option Str) (db : List InsertedRow)
    (chunks : List DocumentChunk) : StoreResult × List InsertedRow :=
  if chunks.isEmpty then
    ({ success := false, vectorCount := 0, error := some (lit "No chunks provided") }, db)
  else
    match generateEmbeddings embedFn (chunks.map (fun c => c.content)) with
    | .error e => ({ success := false, vectorCount := 0, error := some e }, db)
    | .ok embeddings =>
      if embeddings.length ≠ chunks.length then
        ({ success := false, vectorCount := 0,
           error := some (lit "Embedding count mismatch") }, db)
      else
        match insertLoop insertFail (chunks.zip embeddings) 0 with
        | .error e => ({ success := false, vectorCount := 0, error := some e }, db)
        | .ok pending =>
          ({ success := true, vectorCount := chunks.length, error := none },
            db ++ pending)

/-! ## Chat event stream (`app/api/chat/route.ts` and
`lib/answer-generation.ts`) -/

/-- A source entry of the final metadata event (the source's field `section`
is a Lean keyword, so it is `sect` here). -/
structure ChatSource where
  county : Str
  documentTitle : Str
  sect : Option Str
deriving DecidableEq

/-- The wire events of the chat stream (each is one `data: {...}\n\n`
frame). -/
inductive SSEEvent where
  | token : Str → SSEEvent
  | complete : SSEEvent
  | metadata : List ChatSource → Nat → SSEEvent
deriving DecidableEq

/-- `extractSources` of `lib/retrieval.ts`: deduplicate by
`(county, documentTitle, sectionHeader)` keeping first-seen order (the key
collapses a missing and an empty section header, as the source's
`${chunk.sectionHeader || ''}` does). -/
def extractSourcesGo (seen : List (Str × Str × Str)) :
    List RetrievedChunk → List ChatSource
  | [] => []
  | c :: rest =>
    let key := (c.county, c.documentTitle, (c.sectionHeader.getD []))
    if key ∈ seen then extractSourcesGo seen rest
    else
      { county := c.county, documentTitle := c.documentTitle,
        sect := c.sectionHeader } :: extractSourcesGo (key :: seen) rest

/-- `extractSources` of `lib/retrieval.ts` (empty input short-circuits to
`[]`, which the recursion also yields). -/
def extractSources (chunks : List RetrievedChunk) : List ChatSource :=
  extractSourcesGo [] chunks

/-- The route's reshaping of a source for the metadata event
(`section: s.section || undefined` collapses an empty section to absent). -/
def toWireSource (s : ChatSource) : ChatSource :=
  { s with sect := match s.sect with
      | some t => if t.isEmpty then none else some t
      | none => none }

/-- The stream built by `generateAnswer` (source lines 119-142): one `token`
event per streamed delta whose content is truthy (nonempty), then exactly one
`complete` event.  `deltas` is the list of `chunk.choices[0]?.delta?.content`
values the provider streams (absent modelled as empty). -/
def generateAnswerEvents (deltas : List Str) : List SSEEvent :=
  (deltas.filter (fun c => !c.isEmpty)).map SSEEvent.token ++ [SSEEvent.complete]

/-- The transformed stream of the normal chat path (route lines 142-176): the
generator's events pass through unchanged, then the route appends exactly one
`metadata` event carrying the deduplicated sources and the chunk count. -/
def chatEventsNormal (deltas : List Str) (chunks : List RetrievedChunk) :
    List SSEEvent :=
  generateAnswerEvents deltas ++
    [SSEEvent.metadata ((extractSources chunks).map toWireSource) chunks.length]

/-- The county-aware no-results message (route lines 73-75). -/
def noResultsMessage (query : Str) (county : Option Str) : Str :=
  match county with
  | some c =>
    lit "I couldn\x27t find any relevant information about \"" ++ query ++
      lit "\" in the uploaded documents from " ++ c ++
      lit " County. You may need to upload " ++ c ++
      lit " County tax lien guidelines or try searching without the county filter."
  | none =>
    lit "I couldn\x27t find any relevant information about \"" ++ query ++
      lit "\" in the uploaded documents. You may need to upload tax lien guidelines from the relevant county."

/-- The word-by-word token contents of the bypass stream (route lines 82-87):
`split(' ')`, each piece after the first re-prefixed with the space. -/
def bypassTokens (message : Str) : List Str :=
  match splitOnChar ' ' message with
  | [] => []
  | h :: t => h :: t.map (fun s => ' ' :: s)

/-- The zero-chunks bypass stream (route lines 78-103): the canned message as
`token` events, then one `complete`, then one `metadata` with no sources and
`chunksUsed = 0`. -/
def chatEventsNoResults (query : Str) (county : Option Str) : List SSEEvent :=
  (bypassTokens (noResultsMessage query county)).map SSEEvent.token ++
    [SSEEvent.complete, SSEEvent.metadata [] 0]

/-- The full event stream of one chat request (route lines 70-185): the
bypass when retrieval returned no chunks, the generator-plus-metadata stream
otherwise. -/
def chatRequestEvents (deltas : List Str) (chunks : List RetrievedChunk)
    (query : Str) (county : Option Str) : List SSEEvent :=
  if chunks.isEmpty then chatEventsNoResults query county
  else chatEventsNormal deltas chunks

/-- Whether an event is the `complete` event. -/
def isCompleteEvent : SSEEvent → Bool
  | SSEEvent.complete => true
  | _ => false

/-- Whether an event is a `metadata` event. -/
def isMetadataEvent : SSEEvent → Bool
  | SSEEvent.metadata _ _ => true
  | _ => false

/-- Whether an event is a `token` event. -/
def isTokenEvent : SSEEvent → Bool
  | SSEEvent.token _ => true
  | _ => false

/-- A concrete document chunk used as input in several concrete
evaluations. -/
def witChunk : DocumentChunk :=
  { id := lit "c1"
    documentId := lit "d"
    content := lit "hello"
    metadata :=
      { county := lit "Denver"
        title := lit "T"
        year := 2024
        documentTitle := lit "T"
        chunkIndex := 0
        totalChunks := 1
        sectionHeader := none
        subsectionHeader := none } }

/-! ## Theorems -/

/-- The configured distance threshold is the source's `1.2`. -/
theorem ratThreshold_eq : RAG_CONFIG.MAX_DISTANCE_THRESHOLD = 6 / 5 := by
  rw [Rat.eq_iff_mul_eq_mul]
  norm_num [RAG_CONFIG]

/-- The SQL read path returns at most `limit` rows. -/
theorem sqlNearest_length_le (dist : StoredRow → ℚ) (db : List StoredRow)
    (county : Option Str) (limit : Nat) :
    (sqlNearest dist db county limit).length ≤ limit := by
  unfold sqlNearest
  exact List.length_take_le _ _

/-- The SQL read path returns rows in ascending distance order. -/
theorem sqlNearest_pairwise (dist : StoredRow → ℚ) (db : List StoredRow)
    (county : Option Str) (limit : Nat) :
    List.Pairwise (fun a b => dist a ≤ dist b) (sqlNearest dist db county limit) := by
  unfold sqlNearest
  exact List.Pairwise.sublist (List.take_sublist _ _)
    (List.sorted_insertionSort (fun a b => dist a ≤ dist b) _)

/-- Rows returned under a county filter all carry that county. -/
theorem sqlNearest_mem_county (dist : StoredRow → ℚ) (db : List StoredRow)
    (c : Str) (limit : Nat) (r : StoredRow)
    (hr : r ∈ sqlNearest dist db (some c) limit) : r.county = c := by
  unfold sqlNearest at hr
  have hr2 := List.mem_of_mem_take hr
  have hr3 := (List.perm_insertionSort (fun a b => dist a ≤ dist b) _).mem_iff.mp hr2
  have := List.of_mem_filter hr3
  exact of_decide_eq_true this

/-- C1 (amended): every `queryVectors` call returns at most `topK` rows, in
ascending cosine-distance order, all matching the county exactly when one is
supplied — but the store additionally applies its own distance-threshold
filter, dropping rows with distance above `maxDistance` (default `1.2`);
distance filtering is not left solely to the Retriever. -/
theorem C1_queryVectors_ordered_bounded (dist : StoredRow → ℚ)
    (db : List StoredRow) (queryText : Str) (options : QueryOptions) :
    (queryVectors dist db queryText options).length ≤
      options.topK.getD RAG_CONFIG.DEFAULT_TOP_K
  ∧ List.Pairwise (· ≤ ·)
      ((queryVectors dist db queryText options).map (fun x => x.distance))
  ∧ (∀ x ∈ queryVectors dist db queryText options,
      x.distance ≤ options.maxDistance.getD RAG_CONFIG.MAX_DISTANCE_THRESHOLD)
  ∧ (∀ c, options.county = some c →
      ∀ x ∈ queryVectors dist db queryText options, x.metadata.county = c) := by
  by_cases hq : (trimStr queryText).length = 0
  · simp [queryVectors, hq]
  · have hmain : queryVectors dist db queryText options =
        ((sqlNearest dist db options.county
            (options.topK.getD RAG_CONFIG.DEFAULT_TOP_K)).filter
          (fun r => dist r ≤
            options.maxDistance.getD RAG_CONFIG.MAX_DISTANCE_THRESHOLD)).map
          (toSearchResult dist) := by
      unfold queryVectors
      rw [if_neg hq]
    refine ⟨?_, ?_, ?_, ?_⟩
    · rw [hmain, List.length_map]
      exact le_trans (List.length_filter_le _ _) (sqlNearest_length_le _ _ _ _)
    · rw [hmain, List.map_map]
      have hcomp : (fun x : VectorSearchResult => x.distance) ∘ toSearchResult dist
          = dist := rfl
      rw [hcomp, List.pairwise_map]
      exact List.Pairwise.sublist (List.filter_sublist _) (sqlNearest_pairwise _ _ _ _)
    · intro x hx
      rw [hmain] at hx
      obtain ⟨r, hr, rfl⟩ := List.mem_map.mp hx
      have hd : dist r ≤ options.maxDistance.getD RAG_CONFIG.MAX_DISTANCE_THRESHOLD :=
        of_decide_eq_true (List.mem_filter.mp hr).2
      exact hd
    · intro c hc x hx
      rw [hmain] at hx
      obtain ⟨r, hr, rfl⟩ := List.mem_map.mp hx
      have hmem := List.mem_of_mem_filter hr
      rw [hc] at hmem
      exact sqlNearest_mem_county dist db c _ r hmem

/-- C1 witness: on a one-row store under a Denver county filter the theorem's
bounds hold at a concrete input. -/
theorem C1_queryVectors_ordered_bounded_witness :
    (queryVectors (fun _ => 1)
        [{ id := lit "r1", content := lit "c", county := lit "Denver",
           documentTitle := lit "D", year := 2024, sectionHeader := none,
           subsectionHeader := none, chunkIndex := 0, totalChunks := 1 }]
        (lit "q") { county := some (lit "Denver") }).length ≤ 5
  ∧ ∀ x ∈ queryVectors (fun _ => 1)
        [{ id := lit "r1", content := lit "c", county := lit "Denver",
           documentTitle := lit "D", year := 2024, sectionHeader := none,
           subsectionHeader := none, chunkIndex := 0, totalChunks := 1 }]
        (lit "q") { county := some (lit "Denver") },
      x.metadata.county = lit "Denver" :=
  ⟨(C1_queryVectors_ordered_bounded (fun _ => 1) _ (lit "q") _).1,
   (C1_queryVectors_ordered_bounded (fun _ => 1) _ (lit "q") _).2.2.2
     (lit "Denver") rfl⟩

/-- C1 counterexample: with one stored row at distance `2` and default
options, the claim's "no distance filtering in the store" reading
(`queryVectorsAsSpecified`) returns the row, but `queryVectors` (the source)
filters it out — the store does apply a distance threshold of its own. -/
theorem C1_queryVectors_counterexample :
    queryVectors (fun _ => 2)
      [{ id := lit "r1", content := lit "c", county := lit "Denver",
         documentTitle := lit "D", year := 2024, sectionHeader := none,
         subsectionHeader := none, chunkIndex := 0, totalChunks := 1 }]
      (lit "q") {} = []
  ∧ queryVectorsAsSpecified (fun _ => 2)
      [{ id := lit "r1", content := lit "c", county := lit "Denver",
         documentTitle := lit "D", year := 2024, sectionHeader := none,
         subsectionHeader := none, chunkIndex := 0, totalChunks := 1 }]
      (lit "q") {} ≠ [] := by
  constructor
  · rfl
  · decide

/-- C2: every successful `retrieveRelevantChunks` call returns only chunks
whose distance is at most the effective threshold (the caller's value, else
the configured `1.2`), and the returned list is sorted in ascending order of
distance. -/
theorem C2_retrieve_threshold_sorted (dist : StoredRow → ℚ)
    (db : List StoredRow) (query : Str) (options : RetrievalOptions)
    (out : List RetrievedChunk)
    (h : retrieveRelevantChunks dist db query options = .ok out) :
    (∀ c ∈ out,
      c.distance ≤ options.minDistance.getD RAG_CONFIG.MAX_DISTANCE_THRESHOLD)
  ∧ List.Pairwise (· ≤ ·) (out.map (fun c => c.distance)) := by
  by_cases hq : (trimStr query).length = 0
  · rw [retrieveRelevantChunks, if_pos hq] at h
    cases h
  · rw [retrieveRelevantChunks, if_neg hq] at h
    obtain rfl : ((sqlNearest dist db options.county
        (options.topK.getD RAG_CONFIG.DEFAULT_TOP_K)).filter
        (fun r => dist r ≤
          options.minDistance.getD RAG_CONFIG.MAX_DISTANCE_THRESHOLD)).map
        (toRetrievedChunk dist) = out := by
      cases h
      rfl
    constructor
    · intro c hc
      obtain ⟨r, hr, rfl⟩ := List.mem_map.mp hc
      have hd : dist r ≤ options.minDistance.getD RAG_CONFIG.MAX_DISTANCE_THRESHOLD :=
        of_decide_eq_true (List.mem_filter.mp hr).2
      exact hd
    · rw [List.map_map]
      have hcomp : (fun c : RetrievedChunk => c.distance) ∘ toRetrievedChunk dist
          = dist := rfl
      rw [hcomp, List.pairwise_map]
      exact List.Pairwise.sublist (List.filter_sublist _) (sqlNearest_pairwise _ _ _ _)

/-- C2 witness: a concrete successful call satisfying both conclusions. -/
theorem C2_retrieve_threshold_sorted_witness :
    (∀ c ∈ [toRetrievedChunk (fun _ => 1)
        { id := lit "r1", content := lit "c", county := lit "Denver",
          documentTitle := lit "D", year := 2024, sectionHeader := none,
          subsectionHeader := none, chunkIndex := 0, totalChunks := 1 }],
      c.distance ≤ (RetrievalOptions.minDistance {}).getD
        RAG_CONFIG.MAX_DISTANCE_THRESHOLD)
  ∧ List.Pairwise (· ≤ ·)
      (([toRetrievedChunk (fun _ => 1)
        { id := lit "r1", content := lit "c", county := lit "Denver",
          documentTitle := lit "D", year := 2024, sectionHeader := none,
          subsectionHeader := none, chunkIndex := 0, totalChunks := 1 }]).map
        (fun c => c.distance)) :=
  C2_retrieve_threshold_sorted (fun _ => 1)
    [{ id := lit "r1", content := lit "c", county := lit "Denver",
       documentTitle := lit "D", year := 2024, sectionHeader := none,
       subsectionHeader := none, chunkIndex := 0, totalChunks := 1 }]
    (lit "q") {} _ rfl

/-- C5: `retrieveRelevantChunks` fails with an error on a blank (empty or
whitespace-only) query; on a non-blank query for which no stored row passes
the distance threshold — in particular under a county filter matching no
stored chunk — it returns the empty list rather than an error. -/
theorem C5_retrieve_blank_and_empty (dist : StoredRow → ℚ)
    (db : List StoredRow) (query : Str) (options : RetrievalOptions) :
    ((trimStr query).length = 0 →
      retrieveRelevantChunks dist db query options =
        .error (lit "Query cannot be empty"))
  ∧ ((trimStr query).length ≠ 0 →
      (sqlNearest dist db options.county
          (options.topK.getD RAG_CONFIG.DEFAULT_TOP_K)).filter
        (fun r => dist r ≤
          options.minDistance.getD RAG_CONFIG.MAX_DISTANCE_THRESHOLD) = [] →
      retrieveRelevantChunks dist db query options = .ok []) := by
  constructor
  · intro hq
    rw [retrieveRelevantChunks, if_pos hq]
  · intro hq hempty
    simp only [retrieveRelevantChunks]
    rw [if_neg hq, hempty]
    rfl

/-- C5 witness: a blank query errors, and a Boulder-filtered query against a
store holding only Denver chunks returns `.ok []`. -/
theorem C5_retrieve_blank_and_empty_witness :
    retrieveRelevantChunks (fun _ => 1)
      [{ id := lit "r1", content := lit "c", county := lit "Denver",
         documentTitle := lit "D", year := 2024, sectionHeader := none,
         subsectionHeader := none, chunkIndex := 0, totalChunks := 1 }]
      (lit " ") {} = .error (lit "Query cannot be empty")
  ∧ retrieveRelevantChunks (fun _ => 1)
      [{ id := lit "r1", content := lit "c", county := lit "Denver",
         documentTitle := lit "D", year := 2024, sectionHeader := none,
         subsectionHeader := none, chunkIndex := 0, totalChunks := 1 }]
      (lit "q") { county := some (lit "Boulder") } = .ok [] :=
  ⟨(C5_retrieve_blank_and_empty (fun _ => 1) _ (lit " ") {}).1 (by decide),
   (C5_retrieve_blank_and_empty (fun _ => 1) _ (lit "q")
      { county := some (lit "Boulder") }).2 (by decide) (by decide)⟩

/-- A successful insert loop buffers exactly one row per chunk/embedding
pair. -/
theorem insertLoop_ok (insertFail : Nat → Option Str) :
    ∀ (ps : List (DocumentChunk × List ℚ)) (i : Nat)
      (rows : List InsertedRow),
      insertLoop insertFail ps i = .ok rows →
      rows = ps.map (fun p => rowOfChunk p.1 p.2) := by
  intro ps
  induction ps with
  | nil =>
    intro i rows h
    cases h
    rfl
  | cons p rest ih =>
    intro i rows h
    obtain ⟨c, v⟩ := p
    rw [insertLoop] at h
    cases hf : insertFail i with
    | some e => rw [hf] at h; cases h
    | none =>
      rw [hf] at h
      cases hrec : insertLoop insertFail rest (i + 1) with
      | error e => rw [hrec] at h; cases h
      | ok rows0 =>
        rw [hrec] at h
        cases h
        rw [List.map_cons]
        rw [ih (i + 1) rows0 hrec]

/-- C4: on a non-empty chunk list, `storeDocumentChunks` is atomic: a failed
run (embedding failure, count mismatch, or a failed insert) leaves the
committed relation unchanged, and a successful run appends exactly one row
per chunk, carrying the chunks' ids and contents — partial storage of a
document's chunks is never observable. -/
theorem C4_store_atomic (embedFn : Str → List ℚ)
    (insertFail : Nat → Option Str) (db : List InsertedRow)
    (chunks : List DocumentChunk) (hne : chunks ≠ []) :
    ((storeDocumentChunks embedFn insertFail db chunks).1.success = true →
      ∃ rows, (storeDocumentChunks embedFn insertFail db chunks).2 = db ++ rows
        ∧ rows.length = chunks.length
        ∧ rows.map (fun w => w.id) = chunks.map (fun c => c.id)
        ∧ rows.map (fun w => w.content) = chunks.map (fun c => c.content))
  ∧ ((storeDocumentChunks embedFn insertFail db chunks).1.success = false →
      (storeDocumentChunks embedFn insertFail db chunks).2 = db) := by
  have hompty : chunks.isEmpty = false := by
    cases chunks with
    | nil => exact absurd rfl hne
    | cons a l => rfl
  rw [storeDocumentChunks, hompty]
  simp only [Bool.false_eq_true, if_false]
  cases hemb : generateEmbeddings embedFn (chunks.map (fun c => c.content)) with
  | error e =>
    dsimp only
    exact ⟨fun h => absurd h Bool.false_ne_true, fun _ => rfl⟩
  | ok embeddings =>
    dsimp only
    by_cases hlen : embeddings.length ≠ chunks.length
    · rw [if_pos hlen]
      exact ⟨fun h => absurd h Bool.false_ne_true, fun _ => rfl⟩
    · rw [if_neg hlen]
      push_neg at hlen
      cases hins : insertLoop insertFail (chunks.zip embeddings) 0 with
      | error e =>
        dsimp only
        exact ⟨fun h => absurd h Bool.false_ne_true, fun _ => rfl⟩
      | ok pending =>
        dsimp only
        refine ⟨fun _ => ⟨pending, rfl, ?_, ?_, ?_⟩, fun h => nomatch h⟩
        · rw [insertLoop_ok insertFail _ 0 pending hins, List.length_map,
            List.length_zip, hlen]
          exact Nat.min_self _
        · rw [insertLoop_ok insertFail _ 0 pending hins, List.map_map]
          have : ((fun w => w.id) ∘ fun p : DocumentChunk × List ℚ =>
              rowOfChunk p.1 p.2) = fun p : DocumentChunk × List ℚ => p.1.id := rfl
          rw [this]
          have hfst : (fun p : DocumentChunk × List ℚ => p.1.id) =
              (fun c : DocumentChunk => c.id) ∘ Prod.fst := rfl
          rw [hfst, ← List.map_map, List.map_fst_zip _ _ (le_of_eq hlen.symm)]
        · rw [insertLoop_ok insertFail _ 0 pending hins, List.map_map]
          have : ((fun w => w.content) ∘ fun p : DocumentChunk × List ℚ =>
              rowOfChunk p.1 p.2) =
              fun p : DocumentChunk × List ℚ => p.1.content := rfl
          rw [this]
          have hfst : (fun p : DocumentChunk × List ℚ => p.1.content) =
              (fun c : DocumentChunk => c.content) ∘ Prod.fst := rfl
          rw [hfst, ← List.map_map, List.map_fst_zip _ _ (le_of_eq hlen.symm)]

/-- C4 witness: a concrete failing insert leaves the concrete store
unchanged. -/
theorem C4_store_atomic_witness :
    ([witChunk] : List DocumentChunk) ≠ []
  ∧ ((storeDocumentChunks (fun _ => [1]) (fun _ => some (lit "boom")) []
        [witChunk]).1.success = false →
      (storeDocumentChunks (fun _ => [1]) (fun _ => some (lit "boom")) []
        [witChunk]).2 = []) :=
  ⟨by decide,
   (C4_store_atomic (fun _ => [1]) (fun _ => some (lit "boom")) [] [witChunk]
      (by decide)).2⟩

/-- The retry loop never exceeds `attempt + remaining - 1` attempts. -/
theorem genEmbedGo_attempts_le (oracle : Nat → AttemptOutcome) :
    ∀ (remaining attempt slept : Nat),
      (genEmbedGo oracle remaining attempt slept).attempts ≤
        attempt + remaining - 1 := by
  intro remaining
  induction remaining with
  | zero =>
    intro attempt slept
    simp [genEmbedGo]
  | succ rem ih =>
    intro attempt slept
    rw [genEmbedGo]
    cases oracle attempt with
    | success v => simp
    | rateLimit =>
      have := ih (attempt + 1) (slept + 2 ^ attempt * 1000)
      simp only
      omega
    | authError => simp
    | transient m =>
      by_cases hlt : attempt < 3
      · have := ih (attempt + 1) (slept + 2 ^ attempt * 1000)
        simp only [if_pos hlt]
        omega
      · simp only [if_neg hlt]
        omega

/-- C6: every `generateEmbedding` call makes at most 3 attempts; on a
non-blank text the call is exactly the retry loop entered at attempt 1 with
no sleep; at every attempt `n`, a rate-limit re-enters the loop only after
sleeping `2^n * 1000` ms, a transient error does the same while a retry
remains (`n < 3`), and an auth error ends the call right there — same
attempt, no retry, no added sleep; and in the 429-429-success scenario the
call succeeds on the third attempt with total sleep `2^1 + 2^2` seconds. -/
theorem C6_embedding_retry (oracle : Nat → AttemptOutcome) (text : Str)
    (v : List ℚ) :
    (generateEmbedding oracle text).attempts ≤ 3
  ∧ (¬(text.isEmpty = true ∨ (trimStr text).length = 0) →
      generateEmbedding oracle text = genEmbedGo oracle 3 1 0)
  ∧ (∀ (n r s : Nat), oracle n = .rateLimit →
      genEmbedGo oracle (r + 1) n s =
        genEmbedGo oracle r (n + 1) (s + 2 ^ n * 1000))
  ∧ (∀ (n r s : Nat) (m : Str), oracle n = .transient m → n < 3 →
      genEmbedGo oracle (r + 1) n s =
        genEmbedGo oracle r (n + 1) (s + 2 ^ n * 1000))
  ∧ (∀ (n r s : Nat), oracle n = .authError →
      genEmbedGo oracle (r + 1) n s =
        { result := .error (lit "Invalid OpenAI API key"), sleptMs := s,
          attempts := n })
  ∧ (¬(text.isEmpty = true ∨ (trimStr text).length = 0) →
      oracle 1 = .rateLimit → oracle 2 = .rateLimit → oracle 3 = .success v →
      generateEmbedding oracle text =
        { result := .ok v, sleptMs := 2 ^ 1 * 1000 + 2 ^ 2 * 1000,
          attempts := 3 }) := by
  refine ⟨?_, ?_, ?_, ?_, ?_, ?_⟩
  · rw [generateEmbedding]
    by_cases hb : text.isEmpty = true ∨ (trimStr text).length = 0
    · rw [if_pos hb]
      simp
    · rw [if_neg hb]
      exact genEmbedGo_attempts_le oracle 3 1 0
  · intro hb
    rw [generateEmbedding, if_neg hb]
  · intro n r s h
    rw [genEmbedGo, h]
  · intro n r s m h hn
    rw [genEmbedGo, h]
    rw [if_pos hn]
  · intro n r s h
    rw [genEmbedGo, h]
  · intro hb h1 h2 h3
    rw [generateEmbedding, if_neg hb, genEmbedGo, h1, genEmbedGo, h2,
      genEmbedGo, h3]
    norm_num

/-- C6 witness: the 429-429-success scenario at a concrete oracle succeeds
with 6000 ms of backoff over 3 attempts; a concrete auth error at attempt 2
ends the loop at attempt 2 with its sleep untouched; and a concrete
transient error at attempt 2 retries only after 2^2 seconds. -/
theorem C6_embedding_retry_witness :
    (generateEmbedding
      (fun n => if n ≤ 2 then AttemptOutcome.rateLimit
                else AttemptOutcome.success [1])
      (lit "q") =
      { result := .ok [1], sleptMs := 2 ^ 1 * 1000 + 2 ^ 2 * 1000,
        attempts := 3 })
  ∧ (genEmbedGo (fun _ => AttemptOutcome.authError) 2 2 2000 =
      { result := .error (lit "Invalid OpenAI API key"), sleptMs := 2000,
        attempts := 2 })
  ∧ (genEmbedGo (fun _ => AttemptOutcome.transient (lit "socket hang up"))
        2 2 0 =
      genEmbedGo (fun _ => AttemptOutcome.transient (lit "socket hang up"))
        1 3 (0 + 2 ^ 2 * 1000)) :=
  ⟨(C6_embedding_retry
      (fun n => if n ≤ 2 then AttemptOutcome.rateLimit
                else AttemptOutcome.success [1])
      (lit "q") [1]).2.2.2.2.2 (by decide) rfl rfl rfl,
   (C6_embedding_retry (fun _ => AttemptOutcome.authError) (lit "q")
      [1]).2.2.2.2.1 2 1 2000 rfl,
   (C6_embedding_retry
      (fun _ => AttemptOutcome.transient (lit "socket hang up")) (lit "q")
      [1]).2.2.2.1 2 1 0 (lit "socket hang up") rfl (by decide)⟩

/-- Streams of the shape `tokens ++ [complete, metadata]` carry exactly one
`complete` and one `metadata` event. -/
theorem tokenShape_counts (toks : List Str) (s : List ChatSource) (n : Nat) :
    ((toks.map SSEEvent.token ++
        [SSEEvent.complete, SSEEvent.metadata s n]).filter
      isCompleteEvent).length = 1
  ∧ ((toks.map SSEEvent.token ++
        [SSEEvent.complete, SSEEvent.metadata s n]).filter
      isMetadataEvent).length = 1 := by
  have htok1 : (toks.map SSEEvent.token).filter isCompleteEvent = [] := by
    rw [List.filter_eq_nil_iff]
    intro a ha
    obtain ⟨t, _, rfl⟩ := List.mem_map.mp ha
    simp [isCompleteEvent]
  have htok2 : (toks.map SSEEvent.token).filter isMetadataEvent = [] := by
    rw [List.filter_eq_nil_iff]
    intro a ha
    obtain ⟨t, _, rfl⟩ := List.mem_map.mp ha
    simp [isMetadataEvent]
  constructor
  · rw [List.filter_append, htok1]
    rfl
  · rw [List.filter_append, htok2]
    rfl

/-- C9: for every chat request — over both the normal generation path and the
zero-chunks bypass — the emitted stream is a run of `token` events followed
by exactly one `complete` and then exactly one `metadata` event as the
terminal pair. -/
theorem C9_chat_terminal_events (deltas : List Str)
    (chunks : List RetrievedChunk) (query : Str) (county : Option Str) :
    (∃ (toks : List Str) (s : List ChatSource) (n : Nat),
      chatRequestEvents deltas chunks query county =
        toks.map SSEEvent.token ++ [SSEEvent.complete, SSEEvent.metadata s n])
  ∧ ((chatRequestEvents deltas chunks query county).filter
      isCompleteEvent).length = 1
  ∧ ((chatRequestEvents deltas chunks query county).filter
      isMetadataEvent).length = 1 := by
  have hshape : ∃ (toks : List Str) (s : List ChatSource) (n : Nat),
      chatRequestEvents deltas chunks query county =
        toks.map SSEEvent.token ++ [SSEEvent.complete, SSEEvent.metadata s n] := by
    rw [chatRequestEvents]
    by_cases hc : chunks.isEmpty
    · rw [if_pos hc]
      exact ⟨bypassTokens (noResultsMessage query county), [], 0, rfl⟩
    · rw [if_neg hc]
      refine ⟨deltas.filter (fun c => !c.isEmpty),
        (extractSources chunks).map toWireSource, chunks.length, ?_⟩
      rw [chatEventsNormal, generateAnswerEvents, List.append_assoc]
      rfl
  obtain ⟨toks, s, n, heq⟩ := hshape
  refine ⟨⟨toks, s, n, heq⟩, ?_, ?_⟩
  · rw [heq]
    exact (tokenShape_counts toks s n).1
  · rw [heq]
    exact (tokenShape_counts toks s n).2

/-- Batching by 100 and re-concatenating is the identity on the filtered
text list. -/
theorem toBatchesGo_flatten :
    ∀ (fuel : Nat) (l : List Str), l.length ≤ fuel →
      (toBatchesGo fuel l).flatten = l := by
  intro fuel
  induction fuel with
  | zero =>
    intro l h
    have : l = [] := List.eq_nil_of_length_eq_zero (Nat.le_zero.mp h)
    subst this
    rfl
  | succ f ih =>
    intro l h
    cases l with
    | nil => rfl
    | cons a t =>
      rw [show toBatchesGo (f + 1) (a :: t) =
          (a :: t).take 100 :: toBatchesGo f ((a :: t).drop 100) from rfl,
        List.flatten_cons,
        ih ((a :: t).drop 100) (by simp at h ⊢; omega),
        List.take_append_drop]

/-- C10: `generateEmbeddings` silently removes blank texts before batching —
the result has exactly one embedding per non-blank input, in input order, so
it can be shorter than the input; an empty input yields `[]` while a
non-empty all-blank input raises an error; and the store path, which relies
on positional alignment, fails (rolling back) whenever the counts differ
because some chunk content is blank. -/
theorem C10_blank_filtering (embedFn : Str → List ℚ) (texts : List Str) :
    (texts = [] → generateEmbeddings embedFn texts = .ok [])
  ∧ (texts ≠ [] → texts.filter validText = [] →
      generateEmbeddings embedFn texts =
        .error (lit "No valid text found to generate embeddings"))
  ∧ (texts.filter validText ≠ [] →
      generateEmbeddings embedFn texts =
        .ok ((texts.filter validText).map embedFn))
  ∧ (∀ (insertFail : Nat → Option Str) (db : List InsertedRow)
        (chunks : List DocumentChunk),
      (∃ c ∈ chunks, validText c.content = false) →
      (∃ c ∈ chunks, validText c.content = true) →
      (storeDocumentChunks embedFn insertFail db chunks).1.success = false ∧
      (storeDocumentChunks embedFn insertFail db chunks).2 = db) := by
  have hok : ∀ (ts : List Str), ts.filter validText ≠ [] →
      generateEmbeddings embedFn ts = .ok ((ts.filter validText).map embedFn) := by
    intro ts hvf
    have hts : ts ≠ [] := by
      intro hnil
      rw [hnil] at hvf
      exact hvf rfl
    have htsb : ts.isEmpty = false := by
      cases ts with
      | nil => exact absurd rfl hts
      | cons a l => rfl
    have hvfb : (ts.filter validText).isEmpty = false := by
      cases hvt : ts.filter validText with
      | nil => exact absurd hvt hvf
      | cons a l => rfl
    rw [generateEmbeddings, htsb]
    simp only [Bool.false_eq_true, if_false, hvfb]
    rw [← List.map_flatten,
      toBatchesGo_flatten (ts.filter validText).length _ (le_refl _)]
  refine ⟨?_, ?_, hok texts, ?_⟩
  · intro h
    rw [h]
    rfl
  · intro hne hvf
    have htsb : texts.isEmpty = false := by
      cases texts with
      | nil => exact absurd rfl hne
      | cons a l => rfl
    rw [generateEmbeddings, htsb]
    simp only [Bool.false_eq_true, if_false, hvf]
    rfl
  · intro insertFail db chunks hbad hgood
    obtain ⟨cb, hcbmem, hcb⟩ := hbad
    obtain ⟨cg, hcgmem, hcg⟩ := hgood
    have hompty : chunks.isEmpty = false := by
      cases chunks with
      | nil => cases hcbmem
      | cons a l => rfl
    have hvf : (chunks.map (fun c => c.content)).filter validText ≠ [] := by
      intro hnil
      rw [List.filter_eq_nil_iff] at hnil
      have hcontra := hnil cg.content (List.mem_map.mpr ⟨cg, hcgmem, rfl⟩)
      rw [hcg] at hcontra
      exact hcontra rfl
    have hemb := hok (chunks.map (fun c => c.content)) hvf
    have hlt : ((chunks.map (fun c => c.content)).filter validText).length <
        (chunks.map (fun c => c.content)).length :=
      List.length_filter_lt_length_iff_exists.mpr
        ⟨cb.content, List.mem_map.mpr ⟨cb, hcbmem, rfl⟩, by simp [hcb]⟩
    have hmm : (((chunks.map (fun c => c.content)).filter validText).map
        embedFn).length ≠ chunks.length := by
      rw [List.length_map]
      rw [List.length_map] at hlt
      omega
    rw [storeDocumentChunks, hompty]
    simp only [Bool.false_eq_true, if_false]
    rw [hemb]
    dsimp only
    rw [if_pos hmm]
    exact ⟨rfl, rfl⟩

/-- C10 witness: one blank and one non-blank text produce a single embedding
(losing alignment), and a two-chunk store with one blank content fails and
leaves the store unchanged. -/
theorem C10_blank_filtering_witness :
    generateEmbeddings (fun _ => [1]) [lit " ", lit "hello"] = .ok [[1]]
  ∧ (storeDocumentChunks (fun _ => [1]) (fun _ => none) []
      [{ witChunk with content := lit " " }, witChunk]).1.success = false
  ∧ (storeDocumentChunks (fun _ => [1]) (fun _ => none) []
      [{ witChunk with content := lit " " }, witChunk]).2 = [] :=
  ⟨(C10_blank_filtering (fun _ => [1]) [lit " ", lit "hello"]).2.2.1 (by decide),
   ((C10_blank_filtering (fun _ => [1]) []).2.2.2 (fun _ => none) []
      [{ witChunk with content := lit " " }, witChunk]
      ⟨{ witChunk with content := lit " " }, by simp, by decide⟩
      ⟨witChunk, by simp, by decide⟩).1,
   ((C10_blank_filtering (fun _ => [1]) []).2.2.2 (fun _ => none) []
      [{ witChunk with content := lit " " }, witChunk]
      ⟨{ witChunk with content := lit " " }, by simp, by decide⟩
      ⟨witChunk, by simp, by decide⟩).2⟩

/-- Past index `0`, the split loop never labels a chunk. -/
theorem splitLoop_unlabeled (meta : DocumentMetadata) (did : Str)
    (level : Nat) (title : Str) (h2 : Option Str) (first : Bool)
    (tcLen : Nat) :
    ∀ (tcs : List Str) (i total : Nat) (prevEnd : Str), 1 ≤ i →
      ∀ e ∈ (splitLoop meta did level title h2 first tcLen tcs i total
        prevEnd).1, e.labeled = false := by
  intro tcs
  induction tcs with
  | nil =>
    intro i total prev h1 e he
    simp [splitLoop] at he
  | cons tc rest ih =>
    intro i total prev h1 e he
    obtain ⟨n, rfl⟩ : ∃ n, i = n + 1 := ⟨i - 1, by omega⟩
    rw [splitLoop] at he
    simp only at he
    generalize (if (n + 1 == 0 && first && h2.isSome : Bool) then
      contextLabel (h2.getD []) level title ++ tc else tc) = cc at he
    generalize (if total > 0 ∨ n + 1 > 0 then prev ++ cc else cc) = cw at he
    split at he
    · rcases List.mem_cons.mp he with rfl | hmem
      · simp
      · exact ih (n + 2) (total + 1) _ (by omega) e hmem
    · exact ih (n + 2) total prev (by omega) e he

/-- Every chunk the split loop keeps satisfies the minimum-size guard: its
content (overlap included) has at least `MIN_CHUNK_SIZE` characters unless
the split produced exactly one piece. -/
theorem splitLoop_minsize (meta : DocumentMetadata) (did : Str)
    (level : Nat) (title : Str) (h2 : Option Str) (first : Bool)
    (tcLen : Nat) :
    ∀ (tcs : List Str) (i total : Nat) (prevEnd : Str),
      ∀ e ∈ (splitLoop meta did level title h2 first tcLen tcs i total
        prevEnd).1,
        RAG_CONFIG.MIN_CHUNK_SIZE ≤ e.chunk.content.length ∨ tcLen = 1 := by
  intro tcs
  induction tcs with
  | nil =>
    intro i total prev e he
    simp [splitLoop] at he
  | cons tc rest ih =>
    intro i total prev e he
    rw [splitLoop] at he
    simp only at he
    generalize (if (i == 0 && first && h2.isSome : Bool) then
      contextLabel (h2.getD []) level title ++ tc else tc) = cc at he
    generalize (if total > 0 ∨ i > 0 then prev ++ cc else cc) = cw at he
    split at he
    · next hcond =>
      rcases List.mem_cons.mp he with rfl | hmem
      · exact hcond
      · exact ih (i + 1) (total + 1) _ e hmem
    · exact ih (i + 1) total prev e he

/-- In a list whose tail carries no label, the label count is at most one and
a labeled element must be the head. -/
theorem labeledHead_facts (e0 : EmittedChunk) (r1 : List EmittedChunk)
    (hr1 : ∀ e ∈ r1, e.labeled = false) :
    ((e0 :: r1).filter (fun e => e.labeled)).length ≤ 1
  ∧ (∀ e ∈ e0 :: r1, e.labeled = true → (e0 :: r1).head? = some e) := by
  have hnil : r1.filter (fun e => e.labeled) = [] := by
    rw [List.filter_eq_nil_iff]
    intro a ha
    rw [hr1 a ha]
    exact Bool.false_ne_true
  constructor
  · rw [List.filter_cons]
    cases he0 : e0.labeled
    · simp [hnil]
    · simp [hnil]
  · intro e he hl
    rcases List.mem_cons.mp he with rfl | hmem
    · rfl
    · exact absurd hl (by rw [hr1 e hmem]; exact Bool.false_ne_true)

/-- In a list with no label at all, the label count is zero and the labeled
cases are vacuous. -/
theorem unlabeled_facts (r1 : List EmittedChunk)
    (hr1 : ∀ e ∈ r1, e.labeled = false) :
    (r1.filter (fun e => e.labeled)).length ≤ 1
  ∧ (∀ e ∈ r1, e.labeled = true → r1.head? = some e) := by
  have hnil : r1.filter (fun e => e.labeled) = [] := by
    rw [List.filter_eq_nil_iff]
    intro a ha
    rw [hr1 a ha]
    exact Bool.false_ne_true
  constructor
  · rw [hnil]
    exact Nat.zero_le 1
  · intro e he hl
    exact absurd hl (by rw [hr1 e he]; exact Bool.false_ne_true)



/-- Facts about the split loop entered at index `0` (as `sectionStep` enters
it): at most its first chunk is labeled, a labeled chunk is the head, and a
label requires the fresh-section flag and a known H2, the label text sitting
between the overlap and the sub-chunk text. -/
theorem splitLoop_zero_facts (meta : DocumentMetadata) (did : Str)
    (level : Nat) (title : Str) (o : Option Str) (f : Bool) (tcLen : Nat)
    (tcs : List Str) (total : Nat) (prev : Str) :
    (((splitLoop meta did level title o f tcLen tcs 0 total prev).1.filter
        (fun e => e.labeled)).length ≤ 1)
  ∧ (∀ e ∈ (splitLoop meta did level title o f tcLen tcs 0 total prev).1,
      e.labeled = true →
      (splitLoop meta did level title o f tcLen tcs 0 total prev).1.head? =
        some e)
  ∧ (∀ e ∈ (splitLoop meta did level title o f tcLen tcs 0 total prev).1,
      e.labeled = true →
      (f = true ∧ ∃ h2v pre post, o = some h2v ∧
        e.chunk.content = pre ++ contextLabel h2v level title ++ post)) := by
  cases tcs with
  | nil =>
    refine ⟨Nat.zero_le 1, ?_, ?_⟩
    · intro e he
      simp [splitLoop] at he
    · intro e he
      simp [splitLoop] at he
  | cons tc rest =>
    have hr1 : ∀ (tt : Nat) (pp : Str),
        ∀ e ∈ (splitLoop meta did level title o f tcLen rest (0 + 1) tt pp).1,
          e.labeled = false :=
      fun tt pp => splitLoop_unlabeled meta did level title o f tcLen rest
        (0 + 1) tt pp (by omega)
    rw [splitLoop]
    simp only [show ((0 == 0 && f && o.isSome : Bool)) = (f && o.isSome)
        from rfl, gt_iff_lt, lt_self_iff_false, or_false]
    cases hlab : (f && o.isSome) with
    | false =>
      simp only [Bool.false_eq_true, if_false]
      refine ⟨?_, ?_, ?_⟩
      · split <;> split
        · exact (labeledHead_facts _ _ (hr1 _ _)).1
        · exact (unlabeled_facts _ (hr1 _ _)).1
        · exact (labeledHead_facts _ _ (hr1 _ _)).1
        · exact (unlabeled_facts _ (hr1 _ _)).1
      · split <;> split
        · exact (labeledHead_facts _ _ (hr1 _ _)).2
        · exact (unlabeled_facts _ (hr1 _ _)).2
        · exact (labeledHead_facts _ _ (hr1 _ _)).2
        · exact (unlabeled_facts _ (hr1 _ _)).2
      · split <;> split
        · intro e he hl
          rcases List.mem_cons.mp he with rfl | hmem
          · cases hl
          · exact absurd hl (by rw [hr1 _ _ e hmem]; exact Bool.false_ne_true)
        · intro e he hl
          exact absurd hl (by rw [hr1 _ _ e he]; exact Bool.false_ne_true)
        · intro e he hl
          rcases List.mem_cons.mp he with rfl | hmem
          · cases hl
          · exact absurd hl (by rw [hr1 _ _ e hmem]; exact Bool.false_ne_true)
        · intro e he hl
          exact absurd hl (by rw [hr1 _ _ e he]; exact Bool.false_ne_true)
    | true =>
      simp only [eq_self_iff_true, if_true]
      have hand := hlab
      rw [Bool.and_eq_true] at hand
      obtain ⟨hfT, hoS⟩ := hand
      obtain ⟨h2v, hh2v⟩ := Option.isSome_iff_exists.mp hoS
      refine ⟨?_, ?_, ?_⟩
      · split <;> split
        · exact (labeledHead_facts _ _ (hr1 _ _)).1
        · exact (unlabeled_facts _ (hr1 _ _)).1
        · exact (labeledHead_facts _ _ (hr1 _ _)).1
        · exact (unlabeled_facts _ (hr1 _ _)).1
      · split <;> split
        · exact (labeledHead_facts _ _ (hr1 _ _)).2
        · exact (unlabeled_facts _ (hr1 _ _)).2
        · exact (labeledHead_facts _ _ (hr1 _ _)).2
        · exact (unlabeled_facts _ (hr1 _ _)).2
      · split <;> split
        · intro e he hl
          rcases List.mem_cons.mp he with rfl | hmem
          · refine ⟨hfT, h2v, prev, tc, hh2v, ?_⟩
            show prev ++ (contextLabel (o.getD []) level title ++ tc) =
              prev ++ contextLabel h2v level title ++ tc
            rw [hh2v, List.append_assoc]
            rfl
          · exact absurd hl (by rw [hr1 _ _ e hmem]; exact Bool.false_ne_true)
        · intro e he hl
          exact absurd hl (by rw [hr1 _ _ e he]; exact Bool.false_ne_true)
        · intro e he hl
          rcases List.mem_cons.mp he with rfl | hmem
          · refine ⟨hfT, h2v, [], tc, hh2v, ?_⟩
            show contextLabel (o.getD []) level title ++ tc =
              [] ++ contextLabel h2v level title ++ tc
            rw [hh2v]
            rfl
          · exact absurd hl (by rw [hr1 _ _ e hmem]; exact Bool.false_ne_true)
        · intro e he hl
          exact absurd hl (by rw [hr1 _ _ e he]; exact Bool.false_ne_true)

/-- C3 (amended): in every section-loop step, at most one emitted chunk
carries a prepended context label, and when one does it is the section's
first emitted chunk, containing `"[Context: {currentH2} > {title}]"` for a
level-3 section and `"[Context: {title}]"` (with `currentH2 = title`) for a
level-2 section.  The label is prepended only when the step still has
`isFirstChunkOfSection` set after the level-2 update and a `currentH2` in
scope — so a level-3 section following any emitted chunk of its parent
level-2 section gets no label, as does any section before the first level-2
heading. -/
theorem C3_section_label (meta : DocumentMetadata) (did : Str)
    (st : BuildState) (sec : MarkdownSection) :
    ∃ emitted, (sectionStep meta did st sec).chunks = st.chunks ++ emitted
  ∧ ((emitted.filter (fun e => e.labeled)).length ≤ 1)
  ∧ (∀ e ∈ emitted, e.labeled = true → emitted.head? = some e)
  ∧ (∀ e ∈ emitted, e.labeled = true →
      ((if sec.level = 2 then true else st.isFirstOfSection) = true ∧
       ∃ h2v pre post,
         (if sec.level = 2 then some sec.title else st.currentH2) = some h2v ∧
         e.chunk.content =
           pre ++ contextLabel h2v sec.level sec.title ++ post)) := by
  rw [sectionStep]
  by_cases hfits : sec.content.length ≤ RAG_CONFIG.CHUNK_SIZE
  · rw [if_pos hfits]
    cases hlab : ((if sec.level = 2 then true else st.isFirstOfSection) &&
        (if sec.level = 2 then some sec.title else st.currentH2).isSome) with
    | false =>
      simp only [Bool.false_eq_true, if_false]
      refine ⟨_, rfl, ?_, ?_, ?_⟩
      · simp
      · intro e he hl
        rcases List.mem_cons.mp he with rfl | hmem
        · rfl
        · cases hmem
      · intro e he hl
        rcases List.mem_cons.mp he with rfl | hmem
        · cases hl
        · cases hmem
    | true =>
      simp only [eq_self_iff_true, if_true]
      have hand := hlab
      rw [Bool.and_eq_true] at hand
      obtain ⟨hfT, hoS⟩ := hand
      obtain ⟨h2v, hh2v⟩ := Option.isSome_iff_exists.mp hoS
      refine ⟨_, rfl, ?_, ?_, ?_⟩
      · simp
      · intro e he hl
        rcases List.mem_cons.mp he with rfl | hmem
        · rfl
        · cases hmem
      · intro e he hl
        rcases List.mem_cons.mp he with rfl | hmem
        · refine ⟨hfT, h2v, ?_⟩
          by_cases hn : st.chunks.length > 0
          · refine ⟨st.prevEnd, sec.content, hh2v, ?_⟩
            show (if st.chunks.length > 0 then
                st.prevEnd ++ (contextLabel
                  ((if sec.level = 2 then some sec.title else
                    st.currentH2).getD []) sec.level sec.title ++ sec.content)
              else contextLabel
                  ((if sec.level = 2 then some sec.title else
                    st.currentH2).getD []) sec.level sec.title ++ sec.content) =
              st.prevEnd ++ contextLabel h2v sec.level sec.title ++ sec.content
            rw [if_pos hn, hh2v, List.append_assoc]
            rfl
          · refine ⟨[], sec.content, hh2v, ?_⟩
            show (if st.chunks.length > 0 then
                st.prevEnd ++ (contextLabel
                  ((if sec.level = 2 then some sec.title else
                    st.currentH2).getD []) sec.level sec.title ++ sec.content)
              else contextLabel
                  ((if sec.level = 2 then some sec.title else
                    st.currentH2).getD []) sec.level sec.title ++ sec.content) =
              [] ++ contextLabel h2v sec.level sec.title ++ sec.content
            rw [if_neg hn, hh2v]
            rfl
        · cases hmem
  · rw [if_neg hfits]
    refine ⟨_, rfl, ?_, ?_, ?_⟩
    · exact (splitLoop_zero_facts meta did sec.level sec.title
        (if sec.level = 2 then some sec.title else st.currentH2)
        (if sec.level = 2 then true else st.isFirstOfSection)
        (splitOnParagraphs sec.content RAG_CONFIG.CHUNK_SIZE).length
        (splitOnParagraphs sec.content RAG_CONFIG.CHUNK_SIZE)
        st.chunks.length st.prevEnd).1
    · exact (splitLoop_zero_facts meta did sec.level sec.title
        (if sec.level = 2 then some sec.title else st.currentH2)
        (if sec.level = 2 then true else st.isFirstOfSection)
        (splitOnParagraphs sec.content RAG_CONFIG.CHUNK_SIZE).length
        (splitOnParagraphs sec.content RAG_CONFIG.CHUNK_SIZE)
        st.chunks.length st.prevEnd).2.1
    · exact (splitLoop_zero_facts meta did sec.level sec.title
        (if sec.level = 2 then some sec.title else st.currentH2)
        (if sec.level = 2 then true else st.isFirstOfSection)
        (splitOnParagraphs sec.content RAG_CONFIG.CHUNK_SIZE).length
        (splitOnParagraphs sec.content RAG_CONFIG.CHUNK_SIZE)
        st.chunks.length st.prevEnd).2.2

/-- C3 witness: a concrete fresh level-2 section step emits at most one
labeled chunk. -/
theorem C3_section_label_witness :
    ((sectionStep { county := lit "Denver", title := lit "T", year := 2024 }
        (lit "d")
        { chunks := [], currentH2 := none, isFirstOfSection := true,
          prevEnd := [] }
        { level := 2, title := lit "A", content := lit "hi",
          startPosition := 0, endPosition := 8 }).chunks.filter
      (fun e => e.labeled)).length ≤ 1 := by
  obtain ⟨em, heq, hle, hhead, hform⟩ :=
    C3_section_label { county := lit "Denver", title := lit "T", year := 2024 }
      (lit "d")
      { chunks := [], currentH2 := none, isFirstOfSection := true,
        prevEnd := [] }
      { level := 2, title := lit "A", content := lit "hi",
        startPosition := 0, endPosition := 8 }
  rw [heq]
  simpa using hle

/-- C3 counterexample: in `"## A\nalpha\n### B\nbeta"` the level-3 section B
is a new section, yet its first (and only) chunk is `"alphabeta"` — no
`"[Context: A > B]"` label is prepended anywhere, because a chunk of the
parent level-2 section was already emitted. -/
theorem C3_section_label_counterexample :
    (chunkMarkdownDocument (lit "## A\nalpha\n### B\nbeta")
        { county := lit "Denver", title := lit "T", year := 2024 }
        (lit "d")).map (fun c => c.content) =
      [lit "[Context: A]\n\nalpha", lit "alphabeta"]
  ∧ (chunkMarkdownDocument (lit "## A\nalpha\n### B\nbeta")
        { county := lit "Denver", title := lit "T", year := 2024 }
        (lit "d")).all
      (fun c => !(hasSub (lit "[Context: A > B]") c.content)) = true :=
  ⟨by decide, by decide⟩

/-- The no-headings loop emits exactly one chunk per paragraph chunk: nothing
is ever dropped on that path. -/
theorem noSectionsLoop_length (meta : DocumentMetadata) (did : Str)
    (total : Nat) : ∀ (tcs : List Str) (i : Nat) (prev : Str),
    (noSectionsLoop meta did total tcs i prev).length = tcs.length := by
  intro tcs
  induction tcs with
  | nil => intro i prev; rfl
  | cons tc rest ih =>
    intro i prev
    rw [noSectionsLoop, List.length_cons, ih, List.length_cons]

/-- C7 (amended): dropping of short chunks happens only in the oversized-
section split path.  A section that fits in `CHUNK_SIZE` always emits exactly
one chunk (however short); in the split path every emitted chunk has at least
`MIN_CHUNK_SIZE` characters after overlap unless the split produced exactly
one piece (per section, not per document); and the no-headings path keeps one
chunk per paragraph chunk, dropping nothing. -/
theorem C7_minsize_drop (meta : DocumentMetadata) (did : Str)
    (st : BuildState) (sec : MarkdownSection) :
    ∃ emitted, (sectionStep meta did st sec).chunks = st.chunks ++ emitted
  ∧ (sec.content.length ≤ RAG_CONFIG.CHUNK_SIZE → emitted.length = 1)
  ∧ (RAG_CONFIG.CHUNK_SIZE < sec.content.length →
      ∀ e ∈ emitted, RAG_CONFIG.MIN_CHUNK_SIZE ≤ e.chunk.content.length ∨
        (splitOnParagraphs sec.content RAG_CONFIG.CHUNK_SIZE).length = 1)
  ∧ (∀ (content : Str), parseMarkdownStructure content = [] →
      (chunkMarkdownDocument content meta did).length =
        (splitOnParagraphs content RAG_CONFIG.CHUNK_SIZE).length) := by
  have hnosec : ∀ (content : Str), parseMarkdownStructure content = [] →
      (chunkMarkdownDocument content meta did).length =
        (splitOnParagraphs content RAG_CONFIG.CHUNK_SIZE).length := by
    intro content hparse
    rw [chunkMarkdownDocument, chunkMarkdownAnnotated, hparse]
    rw [show (([] : List MarkdownSection).isEmpty) = true from rfl, if_pos rfl]
    rw [List.length_map, noSectionsLoop_length]
  rw [sectionStep]
  by_cases hfits : sec.content.length ≤ RAG_CONFIG.CHUNK_SIZE
  · rw [if_pos hfits]
    refine ⟨_, rfl, fun _ => rfl, fun hlt => absurd hlt (not_lt.mpr hfits),
      hnosec⟩
  · rw [if_neg hfits]
    refine ⟨_, rfl, fun hle => absurd hle hfits, fun _ => ?_, hnosec⟩
    exact splitLoop_minsize meta did sec.level sec.title
      (if sec.level = 2 then some sec.title else st.currentH2)
      (if sec.level = 2 then true else st.isFirstOfSection)
      (splitOnParagraphs sec.content RAG_CONFIG.CHUNK_SIZE).length
      (splitOnParagraphs sec.content RAG_CONFIG.CHUNK_SIZE)
      0 st.chunks.length st.prevEnd

/-- C7 witness: a fitting concrete section emits exactly one chunk. -/
theorem C7_minsize_drop_witness :
    (sectionStep { county := lit "Denver", title := lit "T", year := 2024 }
        (lit "d")
        { chunks := [], currentH2 := none, isFirstOfSection := true,
          prevEnd := [] }
        { level := 2, title := lit "A", content := lit "hi",
          startPosition := 0, endPosition := 8 }).chunks.length = 1 := by
  obtain ⟨em, heq, hfit, _, _⟩ :=
    C7_minsize_drop { county := lit "Denver", title := lit "T", year := 2024 }
      (lit "d")
      { chunks := [], currentH2 := none, isFirstOfSection := true,
        prevEnd := [] }
      { level := 2, title := lit "A", content := lit "hi",
        startPosition := 0, endPosition := 8 }
  rw [heq]
  simpa using hfit (by decide)

/-- C7 counterexample: `"## A\nhi\n## B\nyo"` produces two chunks, both far
below `MIN_CHUNK_SIZE`, and neither is dropped — fitting sections are never
subjected to the minimum-size rule, contradicting the claim's "dropped unless
it is the only chunk produced for the document". -/
theorem C7_minsize_drop_counterexample :
    (chunkMarkdownDocument (lit "## A\nhi\n## B\nyo")
        { county := lit "Denver", title := lit "T", year := 2024 }
        (lit "d")).length = 2
  ∧ (chunkMarkdownDocument (lit "## A\nhi\n## B\nyo")
        { county := lit "Denver", title := lit "T", year := 2024 }
        (lit "d")).all
      (fun c => c.content.length < RAG_CONFIG.MIN_CHUNK_SIZE) = true :=
  ⟨by decide, by decide⟩

/-- A section that fits in `CHUNK_SIZE` emits one chunk whose content is at
least as long as the section's content (label and overlap only add
characters). -/
theorem sectionStep_fit_ge (meta : DocumentMetadata) (did : Str)
    (st : BuildState) (sec : MarkdownSection)
    (hfits : sec.content.length ≤ RAG_CONFIG.CHUNK_SIZE) :
    ∃ e, (sectionStep meta did st sec).chunks = st.chunks ++ [e] ∧
      sec.content.length ≤ e.chunk.content.length := by
  rw [sectionStep, if_pos hfits]
  refine ⟨_, rfl, ?_⟩
  show sec.content.length ≤ (if st.chunks.length > 0 then
      st.prevEnd ++ (if ((if sec.level = 2 then true else
          st.isFirstOfSection) &&
        (if sec.level = 2 then some sec.title else st.currentH2).isSome :
          Bool) then
        contextLabel ((if sec.level = 2 then some sec.title else
          st.currentH2).getD []) sec.level sec.title ++ sec.content
      else sec.content)
    else (if ((if sec.level = 2 then true else st.isFirstOfSection) &&
        (if sec.level = 2 then some sec.title else st.currentH2).isSome :
          Bool) then
        contextLabel ((if sec.level = 2 then some sec.title else
          st.currentH2).getD []) sec.level sec.title ++ sec.content
      else sec.content)).length
  repeat' split
  all_goals try simp only [List.length_append]
  all_goals omega

/-- Folding the section loop over fitting sections grows the total content
length by at least the total section-content length. -/
theorem foldl_sectionStep_sum (meta : DocumentMetadata) (did : Str) :
    ∀ (secs : List MarkdownSection) (st : BuildState),
      (∀ sec ∈ secs, sec.content.length ≤ RAG_CONFIG.CHUNK_SIZE) →
      (st.chunks.map (fun e => e.chunk.content.length)).sum +
        (secs.map (fun s => s.content.length)).sum ≤
      ((secs.foldl (sectionStep meta did) st).chunks.map
        (fun e => e.chunk.content.length)).sum := by
  intro secs
  induction secs with
  | nil =>
    intro st _
    simp
  | cons s rest ih =>
    intro st hall
    obtain ⟨e, heq, hge⟩ := sectionStep_fit_ge meta did st s
      (hall s (List.mem_cons_self s rest))
    have hnext := ih (sectionStep meta did st s)
      (fun sec hsec => hall sec (List.mem_cons_of_mem s hsec))
    rw [List.foldl_cons]
    rw [heq, List.map_append, List.sum_append] at hnext
    simp only [List.map_cons, List.sum_cons, List.map_nil, List.sum_nil] at hnext
    simp only [List.map_cons, List.sum_cons]
    omega

/-- The backfill pass rewrites only `chunkIndex`/`totalChunks`; contents are
untouched. -/
theorem backfillGo_map_content (total : Nat) :
    ∀ (l : List EmittedChunk) (i : Nat),
      (backfillGo total i l).map (fun e => e.chunk.content) =
        l.map (fun e => e.chunk.content) := by
  intro l
  induction l with
  | nil => intro i; rfl
  | cons e rest ih =>
    intro i
    rw [backfillGo, List.map_cons, List.map_cons, ih]

/-- C8 (amended): when the parse finds at least one section and every
section's content fits in `CHUNK_SIZE`, the total chunk-content length is at
least the total section-content length (label and overlap only add
characters).  The claim's original bound against the whole document length
fails because heading lines, blank-line separators and trimmed whitespace are
not part of any section's content. -/
theorem C8_sum_lengths (content : Str) (meta : DocumentMetadata) (did : Str)
    (hne : parseMarkdownStructure content ≠ [])
    (hfit : ∀ sec ∈ parseMarkdownStructure content,
      sec.content.length ≤ RAG_CONFIG.CHUNK_SIZE) :
    ((parseMarkdownStructure content).map (fun s => s.content.length)).sum ≤
      sumContentLen (chunkMarkdownDocument content meta did) := by
  rw [chunkMarkdownDocument, chunkMarkdownAnnotated]
  have hie : (parseMarkdownStructure content).isEmpty = false := by
    cases h : parseMarkdownStructure content with
    | nil => exact absurd h hne
    | cons a l => rfl
  rw [hie]
  simp only [Bool.false_eq_true, if_false]
  have hsum : sumContentLen ((backfill ((parseMarkdownStructure
      content).foldl (sectionStep meta did)
      { chunks := [], currentH2 := none, isFirstOfSection := true,
        prevEnd := [] }).chunks).map (fun e => e.chunk)) =
      ((((parseMarkdownStructure content).foldl (sectionStep meta did)
        { chunks := [], currentH2 := none, isFirstOfSection := true,
          prevEnd := [] }).chunks).map
        (fun e => e.chunk.content.length)).sum := by
    rw [sumContentLen, backfill, List.map_map]
    have h1 : ((fun c : DocumentChunk => c.content.length) ∘
        fun e : EmittedChunk => e.chunk) =
        (List.length ∘ fun e : EmittedChunk => e.chunk.content) := rfl
    rw [h1, ← List.map_map, backfillGo_map_content, List.map_map]
    rfl
  rw [hsum]
  have := foldl_sectionStep_sum meta did (parseMarkdownStructure content)
    { chunks := [], currentH2 := none, isFirstOfSection := true,
      prevEnd := [] } hfit
  simpa using this

/-- C8 witness: a concrete one-section document satisfies the amended
bound. -/
theorem C8_sum_lengths_witness :
    ((parseMarkdownStructure (lit "## A\nhello")).map
      (fun s => s.content.length)).sum ≤
    sumContentLen (chunkMarkdownDocument (lit "## A\nhello")
      { county := lit "Denver", title := lit "T", year := 2024 } (lit "d")) :=
  C8_sum_lengths (lit "## A\nhello")
    { county := lit "Denver", title := lit "T", year := 2024 } (lit "d")
    (by decide) (by decide)

/-- C8 counterexample: `"# T\nabcd"` (8 characters) is non-empty after
trimming and accepted by the Chunker, yet its chunks' total content length is
4 — the heading line's characters are not preserved, so the claimed
`sum ≥ document.length` fails. -/
theorem C8_sum_lengths_counterexample :
    (trimStr (lit "# T\nabcd")).length ≠ 0
  ∧ sumContentLen (chunkMarkdownDocument (lit "# T\nabcd")
      { county := lit "Denver", title := lit "T", year := 2024 }
      (lit "d")) < (lit "# T\nabcd").length :=
  ⟨by decide, by decide⟩
